import Mathlib

/-!
Shallow embedding of the crisisline-demo risk/analytics/report core.

Sources embedded:
  * src/logic/risk_rules.py      (has_red_alert, get_highest_risk_score,
                                  validate_risk_scores, get_escalation_recommendations)
  * src/logic/analytics.py       (compute_analytics, calculate_risk_distribution,
                                  calculate_avg_response_time)
  * src/backend/logic/pdf_report.py (draw_call_info, draw_summary_sections,
                                  draw_risk_bar_pdf)
  * src/backend/main.py          (the analytics aggregation inlined in get_analytics)

Python dictionaries with a fixed key set become structures with `Option` fields
(`none` = key absent); `dict.get(k, d)` becomes `Option.getD`.  Python numbers
are `Int`/`Nat`, float division is exact division in `ℚ`.  A Python `dict`
indexing that can raise `KeyError` (`distribution[max_risk] += 1`) is embedded
in `Option` (`none` = the KeyError path).
-/

namespace Crisisline

/-- The four canonical risk dimensions. -/
inductive RiskDim where
  | suicide
  | homicide
  | self_harm
  | harm_others
deriving DecidableEq, Repr, Fintype

/-- One risk-dimension entry `{score: ...}`.  The source objects also carry
`explanation` and `reason_quotes`, which none of the embedded scoring
operations read; only the `score` key (itself possibly absent, since the code
always reads it with `.get("score", 0)` or `.get("score")`) is modelled. -/
structure RiskEntry where
  score : Option Int
deriving DecidableEq, Repr

/-- A risk mapping: each of the four dimension keys is present (`some entry`)
or absent (`none`). -/
def Risk : Type := RiskDim → Option RiskEntry

instance : DecidableEq Risk := by
  unfold Risk
  infer_instance

/-- The empty risk mapping (no dimension key present). -/
def emptyRisk : Risk := fun _ => none

/-- The list `risk_dimensions = ["suicide", "homicide", "self_harm", "harm_others"]`,
the fixed iteration order used throughout `risk_rules.py`. -/
def riskDimensions : List RiskDim :=
  [.suicide, .homicide, .self_harm, .harm_others]

/-- The lookup `risk_obj[dimension].get("score", 0)` for a present entry. -/
def entryScore (e : RiskEntry) : Int := e.score.getD 0

/-- Embedding of `has_red_alert` from src/logic/risk_rules.py: scan the four dimensions in
order; a present dimension with score >= 4 triggers the alert. -/
def has_red_alert (risk_obj : Risk) : Bool :=
  riskDimensions.any fun dimension =>
    match risk_obj dimension with
    | some e => decide (4 ≤ entryScore e)
    | none => false

/-- Embedding of `get_highest_risk_score` from src/logic/risk_rules.py: running maximum,
initialised to 0, over the scores of the present dimensions. -/
def get_highest_risk_score (risk_obj : Risk) : Int :=
  riskDimensions.foldl
    (fun max_score dimension =>
      match risk_obj dimension with
      | some e => max max_score (entryScore e)
      | none => max_score)
    0

/-- Dimension name as it appears in validation messages. -/
def dimName : RiskDim → String
  | .suicide => "suicide"
  | .homicide => "homicide"
  | .self_harm => "self_harm"
  | .harm_others => "harm_others"

/-- Embedding of `validate_risk_scores` from src/logic/risk_rules.py: one error string per
present dimension whose `score` is missing (Python `None`, failing the
`isinstance(score, int)` check) or an integer outside [0,5]. -/
def validate_risk_scores (risk_obj : Risk) : List String :=
  riskDimensions.foldl
    (fun errors dimension =>
      match risk_obj dimension with
      | some e =>
          match e.score with
          | none =>
              errors ++ ["Invalid " ++ dimName dimension ++
                " risk score: None. Must be integer 0-5."]
          | some s =>
              if s < 0 ∨ 5 < s then
                errors ++ ["Invalid " ++ dimName dimension ++
                  " risk score: " ++ toString s ++ ". Must be integer 0-5."]
              else errors
      | none => errors)
    []

/-- Embedding of `get_escalation_recommendations` from src/logic/risk_rules.py. -/
def get_escalation_recommendations (risk_obj : Risk) : List String :=
  let recommendations : List String :=
    if has_red_alert risk_obj then
      ["IMMEDIATE: Escalate to supervisor",
       "IMMEDIATE: Activate crisis response protocol"]
    else []
  let highest_score := get_highest_risk_score risk_obj
  if 4 ≤ highest_score then
    recommendations ++
      ["HIGH PRIORITY: Schedule immediate follow-up",
       "HIGH PRIORITY: Consider emergency services contact"]
  else if 2 ≤ highest_score then
    recommendations ++
      ["MODERATE: Schedule follow-up within 24 hours",
       "MODERATE: Connect with mental health resources"]
  else if 1 ≤ highest_score then
    recommendations ++
      ["LOW: Provide ongoing support resources",
       "LOW: Schedule routine follow-up"]
  else recommendations

/-! ### Call records (the fields read by the embedded operations) -/

/-- The `call["analytics"]` sub-object: `response_time_sec` (possibly absent) and
`handled_by` (possibly absent). -/
structure CallAnalytics where
  response_time_sec : Option Int
  handled_by : Option String
deriving DecidableEq, Repr

/-- The `call["caller_profile"]` sub-object. -/
structure CallerProfile where
  age_range : Option String
  gender : Option String
deriving DecidableEq, Repr

/-- A call record, restricted to the fields the embedded operations read.
`started_at` and `ended_at` are the parsed timestamps as seconds-of-day
(`datetime.fromisoformat` succeeds on them; only `%I:%M %p` formatting is
applied, so the date part is irrelevant to the embedded rendering). -/
structure Call where
  started_at : Nat
  ended_at : Nat
  duration_sec : Option Nat
  channel : Option String
  caller_profile : Option CallerProfile
  risk : Option Risk
  analytics : Option CallAnalytics
deriving DecidableEq

/-- The lookup `call.get("risk", {})`. -/
def callRisk (c : Call) : Risk := c.risk.getD emptyRisk

/-- The lookup `call.get("analytics", {}).get("response_time_sec", 0)`. -/
def callResponseTime (c : Call) : Int :=
  match c.analytics with
  | some a => a.response_time_sec.getD 0
  | none => 0

/-! ### src/logic/analytics.py -/

/-- The per-call maximum risk loop inside `calculate_risk_distribution`:
running maximum, initialised to 0, over present dimensions of
`call.get("risk", {})`. -/
def analyticsMaxRisk (c : Call) : Int :=
  riskDimensions.foldl
    (fun max_risk dimension =>
      match callRisk c dimension with
      | some e => max max_risk (entryScore e)
      | none => max_risk)
    0

/-- The initial `distribution = {i: 0 for i in range(6)}`: six buckets, all zero. -/
def initDist : Fin 6 → Nat := fun _ => 0

/-- The update `distribution[max_risk] += 1`: Python raises `KeyError` when `max_risk`
is not one of the keys 0..5, embedded as `none`. -/
def bumpDist (d : Fin 6 → Nat) (k : Int) : Option (Fin 6 → Nat) :=
  if h : 0 ≤ k ∧ k < 6 then
    let i : Fin 6 := ⟨k.toNat, by omega⟩
    some (Function.update d i (d i + 1))
  else none

/-- Embedding of `calculate_risk_distribution` from src/logic/analytics.py. -/
def calculate_risk_distribution (calls : List Call) : Option (Fin 6 → Nat) :=
  calls.foldlM (fun d c => bumpDist d (analyticsMaxRisk c)) initDist

/-- Embedding of `calculate_avg_response_time` from src/logic/analytics.py: accumulate
`(total_time, valid_calls)` over calls whose response time is > 0, then
divide (exactly, in ℚ, standing for Python float division). -/
def calculate_avg_response_time (calls : List Call) : ℚ :=
  if calls = [] then 0
  else
    let acc := calls.foldl
      (fun (acc : Int × Nat) call =>
        let response_time := callResponseTime call
        if 0 < response_time then (acc.1 + response_time, acc.2 + 1) else acc)
      (0, 0)
    if 0 < acc.2 then (acc.1 : ℚ) / (acc.2 : ℚ) else 0

/-- The analytics summary dictionary returned by `compute_analytics`. -/
structure AnalyticsResult where
  total_calls : Nat
  risk_distribution : Fin 6 → Nat
  avg_response_time : ℚ

instance : DecidableEq AnalyticsResult := by
  intro a b
  rcases a with ⟨t₁, d₁, r₁⟩
  rcases b with ⟨t₂, d₂, r₂⟩
  have : Decidable (t₁ = t₂ ∧ d₁ = d₂ ∧ r₁ = r₂) := inferInstance
  refine decidable_of_iff (t₁ = t₂ ∧ d₁ = d₂ ∧ r₁ = r₂) ?_
  constructor
  · rintro ⟨rfl, rfl, rfl⟩; rfl
  · intro h; injection h with h₁ h₂ h₃; exact ⟨h₁, h₂, h₃⟩

/-- Embedding of `compute_analytics` from src/logic/analytics.py.  The early return for an
empty input produces `avg_response_time = 0` (the Python literal `0`).  A
`KeyError` inside `calculate_risk_distribution` propagates (`none`). -/
def compute_analytics (visible_calls : List Call) : Option AnalyticsResult :=
  if visible_calls = [] then
    some ⟨0, fun _ => 0, 0⟩
  else do
    let risk_distribution ← calculate_risk_distribution visible_calls
    let avg_response_time := calculate_avg_response_time visible_calls
    some ⟨visible_calls.length, risk_distribution, avg_response_time⟩

/-! ### The analytics aggregation inlined in `get_analytics`
(src/backend/main.py, lines 61-89) -/

/-- The lookup `risk.get(d, {}).get("score", 0)`: absent dimension contributes 0. -/
def backendDimScore (r : Risk) (d : RiskDim) : Int :=
  match r d with
  | some e => entryScore e
  | none => 0

/-- The per-call maximum inside `get_analytics`:
`max(suicide, homicide, self_harm, harm_others)` over the four
default-0 lookups when `"risk" in call`, else 0. -/
def backendMaxRisk (c : Call) : Int :=
  match c.risk with
  | some r =>
      max (backendDimScore r .suicide)
        (max (backendDimScore r .homicide)
          (max (backendDimScore r .self_harm) (backendDimScore r .harm_others)))
  | none => 0

/-- The guard `"analytics" in call and "response_time_sec" in call["analytics"]`:
the value added to `total_response_time` (0 when the key is absent). -/
def backendRTContribution (c : Call) : Int :=
  match c.analytics with
  | some a =>
      match a.response_time_sec with
      | some rt => rt
      | none => 0
  | none => 0

/-- The loop body of `get_analytics`: bump the distribution at
`str(max_risk)` (KeyError when out of "0".."5", embedded as `none`; the
string keys are in bijection with the buckets 0..5, so the distribution is
kept on `Fin 6` here too) and accumulate `total_response_time`. -/
def backendStep (acc : (Fin 6 → Nat) × Int) (c : Call) :
    Option ((Fin 6 → Nat) × Int) := do
  let d ← bumpDist acc.1 (backendMaxRisk c)
  pure (d, acc.2 + backendRTContribution c)

/-- The analytics computation inlined in the `get_analytics` endpoint of
src/backend/main.py: one pass accumulating the distribution and the total
response time, then `avg = total_response_time / total_calls` when
`total_calls > 0`, else 0. -/
def backend_get_analytics (calls_data : List Call) : Option AnalyticsResult := do
  let acc ← calls_data.foldlM backendStep (initDist, 0)
  let total_calls := calls_data.length
  let avg_response_time : ℚ :=
    if 0 < total_calls then (acc.2 : ℚ) / (total_calls : ℚ) else 0
  pure ⟨total_calls, acc.1, avg_response_time⟩

/-! ### src/backend/logic/pdf_report.py -/

/-- Two-digit zero padding (`%I`, `%M`, and `{...:02d}` formatting). -/
def pad2 (n : Nat) : String :=
  if n < 10 then "0" ++ toString n else toString n

/-- Formatting `datetime.strftime("%I:%M %p")` on a seconds-of-day timestamp:
zero-padded 12-hour clock hour (01-12), minutes, AM/PM. -/
def fmt12h (t : Nat) : String :=
  let hour24 := t / 3600 % 24
  let h12 := if hour24 % 12 = 0 then 12 else hour24 % 12
  pad2 h12 ++ ":" ++ pad2 (t % 3600 / 60) ++ " " ++
    (if hour24 < 12 then "AM" else "PM")

/-- Python `str.title()`: an alphabetic character is uppercased when it starts
a run of alphabetic characters and lowercased otherwise. -/
def pyTitle (s : String) : String :=
  (s.data.foldl
    (fun (acc : List Char × Bool) c =>
      if c.isAlpha then
        (acc.1 ++ [if acc.2 then c.toLower else c.toUpper], true)
      else (acc.1 ++ [c], false))
    ([], false)).1.asString

/-- Embedding of `draw_call_info` from src/backend/logic/pdf_report.py: the seven
label/value rows of the call-information table, in source order.  Note the
source reads the end time directly from `call["ended_at"]`. -/
def draw_call_info (call : Call) : List (String × String) :=
  let started_at := fmt12h call.started_at
  let ended_at := fmt12h call.ended_at
  let duration_min := call.duration_sec.getD 0 / 60
  let duration_sec := call.duration_sec.getD 0 % 60
  let caller_profile := call.caller_profile.getD ⟨none, none⟩
  let age_range := caller_profile.age_range.getD "Not specified"
  let gender := caller_profile.gender.getD "Not specified"
  [("Call Duration:", toString duration_min ++ ":" ++ pad2 duration_sec),
   ("Start Time:", started_at),
   ("End Time:", ended_at),
   ("Channel:", pyTitle (call.channel.getD "Unknown")),
   ("Age Range:", age_range),
   ("Gender:", if gender ≠ "Not specified" then pyTitle gender else "Not specified"),
   ("Handled By:",
     match call.analytics with
     | some a => a.handled_by.getD "Unknown"
     | none => "Unknown")]

/-- The eight case-summary section keys. -/
inductive SectionKey where
  | caller_profile
  | presenting_problem
  | context_timeline
  | risk_factors
  | protective_factors
  | interventions
  | outcome
  | safety_plan
deriving DecidableEq, Repr, Fintype

/-- The `summary["sections"]` mapping, one optional text per fixed key. -/
def Sections : Type := SectionKey → Option String

instance : DecidableEq Sections := by
  unfold Sections
  infer_instance

/-- The list `section_order` from `draw_summary_sections` (the canonical order). -/
def sectionOrder : List SectionKey :=
  [.caller_profile, .presenting_problem, .context_timeline, .risk_factors,
   .protective_factors, .interventions, .outcome, .safety_plan]

/-- The mapping `section_titles` from `draw_summary_sections`. -/
def sectionTitle : SectionKey → String
  | .caller_profile => "Caller Profile"
  | .presenting_problem => "Presenting Problem"
  | .context_timeline => "Context & Timeline"
  | .risk_factors => "Risk Factors"
  | .protective_factors => "Protective Factors"
  | .interventions => "Interventions Provided"
  | .outcome => "Outcome"
  | .safety_plan => "Safety Plan & Referrals"

/-- Embedding of `draw_summary_sections` from src/backend/logic/pdf_report.py, as the list
of paragraph texts it appends to the story: for each key of `section_order`
that is present with truthy (non-empty) content, a title paragraph followed by
one single content paragraph containing the section text verbatim. -/
def draw_summary_sections (sections : Sections) : List String :=
  sectionOrder.foldl
    (fun story section_key =>
      match sections section_key with
      | some txt => if txt ≠ "" then story ++ [sectionTitle section_key, txt] else story
      | none => story)
    []

/-- Embedding of `draw_risk_bar_pdf` from src/backend/logic/pdf_report.py, as the list of
fill flags of the five segments: segment `i` (0-based) is filled iff
`i < score`. -/
def draw_risk_bar_pdf (score : Int) : List Bool :=
  (List.range 5).map fun i => decide ((i : Int) < score)

/-! ### Spec-side definitions used for refutation/amendment statements -/

/-- The per-key contribution of `draw_summary_sections`: the title paragraph
and the single content paragraph for a present non-empty section, nothing
otherwise. -/
def sectionRendering (sections : Sections) (k : SectionKey) : List String :=
  match sections k with
  | some txt => if txt ≠ "" then [sectionTitle k, txt] else []
  | none => []

/-- Splitting of a comma-delimited text into items (claim C8's words:
"split on comma delimiters into a bullet list"); leading spaces after a comma
are dropped. -/
def splitCharList : List Char → List (List Char)
  | [] => [[]]
  | c :: rest =>
      match splitCharList rest, decide (c = ',') with
      | r, true => [] :: r
      | [], false => [[c]]
      | g :: gs, false => (c :: g) :: gs

/-- Splitting of a comma-delimited section text into bullet items. -/
def splitOnComma (s : String) : List String :=
  (splitCharList s.data).map fun g => (g.dropWhile (· = ' ')).asString

/-- The rendering behaviour asserted by claim C8: like
`draw_summary_sections`, but the `risk_factors` and `protective_factors`
contents are split on comma delimiters into one bullet item per part. -/
def draw_summary_sections_claimed (sections : Sections) : List String :=
  sectionOrder.foldl
    (fun story section_key =>
      match sections section_key with
      | some txt =>
          if txt ≠ "" then
            story ++ sectionTitle section_key ::
              (if section_key = .risk_factors ∨ section_key = .protective_factors
               then splitOnComma txt else [txt])
          else story
      | none => story)
    []

/-! ### Concrete example records -/

/-- A risk mapping with only `suicide` present, carrying score 7. -/
def risk7 : Risk := fun d =>
  match d with
  | .suicide => some ⟨some 7⟩
  | _ => none

/-- A call whose `analytics.response_time_sec` is present but 0. -/
def callRT0 : Call :=
  ⟨36000, 37230, some 90, some "phone", none, none, some ⟨some 0, none⟩⟩

/-- A call whose `analytics.response_time_sec` is 20. -/
def callRT20 : Call :=
  ⟨36000, 37230, some 90, some "phone", none, none, some ⟨some 20, none⟩⟩

/-- A call whose stored `ended_at` (11:30, i.e. 41400s) disagrees with
`started_at + duration_sec` (10:00 + 60s = 10:01). -/
def callMismatchedEnd : Call :=
  ⟨36000, 41400, some 60, some "phone", none, none, none⟩

/-- A call with no `caller_profile` key at all. -/
def callNoProfile : Call :=
  ⟨36000, 37230, some 90, some "phone", none, none, none⟩

/-- A summary whose only present section is `risk_factors`, with
comma-delimited content. -/
def exSections : Sections := fun k =>
  match k with
  | .risk_factors => some "a, b"
  | _ => none

/-- A risk mapping with highest score 3 (moderate tier). -/
def risk3 : Risk := fun d =>
  match d with
  | .suicide => some ⟨some 3⟩
  | .self_harm => some ⟨some 2⟩
  | _ => none

/-- The `analytics.response_time_sec` values that are present and strictly
positive, in call order (the population averaged by the claim). -/
def validRTs (calls : List Call) : List Int :=
  calls.filterMap fun c =>
    match c.analytics with
    | some a =>
        match a.response_time_sec with
        | some rt => if 0 < rt then some rt else none
        | none => none
    | none => none

/-- All-in-bucket-0 distribution for the two-call example. -/
def exDist : Fin 6 → Nat := fun i => if i = 0 then 2 else 0

/-- The analytics summary for the example `[callRT0, callRT20]`. -/
def exRes : AnalyticsResult := ⟨2, exDist, 20⟩

/-- A call carrying the moderate risk mapping `risk3`. -/
def callRisky : Call := ⟨36000, 37230, some 90, none, none, some risk3, none⟩

/-- The validation errors contributed by a single dimension (the loop body of
`validate_risk_scores`). -/
def dimScoreErrors (risk_obj : Risk) (d : RiskDim) : List String :=
  match risk_obj d with
  | some e =>
      match e.score with
      | none =>
          ["Invalid " ++ dimName d ++ " risk score: None. Must be integer 0-5."]
      | some s =>
          if s < 0 ∨ 5 < s then
            ["Invalid " ++ dimName d ++ " risk score: " ++ toString s ++
              ". Must be integer 0-5."]
          else []
  | none => []

/-- A call with the moderate risk mapping and a positive response time. -/
def callFull : Call :=
  ⟨36000, 37230, some 90, some "phone", none, some risk3, some ⟨some 20, some "A. Nurse"⟩⟩

/-! ## Helper lemmas -/

lemma highest_nonneg (r : Risk) : 0 ≤ get_highest_risk_score r := by
  unfold get_highest_risk_score riskDimensions
  rcases h1 : r .suicide with _ | e1 <;> rcases h2 : r .homicide with _ | e2 <;>
    rcases h3 : r .self_harm with _ | e3 <;> rcases h4 : r .harm_others with _ | e4 <;>
    simp [List.foldl, h1, h2, h3, h4]

lemma red_iff (r : Risk) :
    has_red_alert r = true ↔ 4 ≤ get_highest_risk_score r := by
  unfold has_red_alert get_highest_risk_score riskDimensions
  rcases h1 : r .suicide with _ | e1 <;> rcases h2 : r .homicide with _ | e2 <;>
    rcases h3 : r .self_harm with _ | e3 <;> rcases h4 : r .harm_others with _ | e4 <;>
    simp [List.foldl, List.any, h1, h2, h3, h4] <;> omega

/-! ## Claims -/

/-- C1: `has_red_alert(risk)` is true iff one of the four canonical
dimensions present in the mapping has score >= 4; an absent dimension never
triggers the alert, and the empty mapping yields `false`. -/
theorem claim_C1 (r : Risk) :
    (has_red_alert r = true ↔
      ∃ d ∈ riskDimensions, ∃ e, r d = some e ∧ 4 ≤ entryScore e) ∧
    has_red_alert emptyRisk = false := by
  constructor
  · unfold has_red_alert
    rw [List.any_eq_true]
    constructor
    · rintro ⟨d, hd, hp⟩
      rcases h : r d with _ | e
      · rw [h] at hp; cases hp
      · rw [h] at hp
        exact ⟨d, hd, e, h, by simpa using hp⟩
    · rintro ⟨d, hd, e, he, hs⟩
      exact ⟨d, hd, by simp [he, hs]⟩
  · rfl

/-- C2: the escalation recommendations are tiered by the highest dimension
score: >= 4 gives the two IMMEDIATE actions followed by the two HIGH
PRIORITY actions; 2-3 gives only the two MODERATE actions; 1 gives only the
two LOW actions; 0 gives the empty list. -/
theorem claim_C2 (r : Risk) :
    (4 ≤ get_highest_risk_score r →
      get_escalation_recommendations r =
        ["IMMEDIATE: Escalate to supervisor",
         "IMMEDIATE: Activate crisis response protocol",
         "HIGH PRIORITY: Schedule immediate follow-up",
         "HIGH PRIORITY: Consider emergency services contact"]) ∧
    (2 ≤ get_highest_risk_score r → get_highest_risk_score r ≤ 3 →
      get_escalation_recommendations r =
        ["MODERATE: Schedule follow-up within 24 hours",
         "MODERATE: Connect with mental health resources"]) ∧
    (get_highest_risk_score r = 1 →
      get_escalation_recommendations r =
        ["LOW: Provide ongoing support resources",
         "LOW: Schedule routine follow-up"]) ∧
    (get_highest_risk_score r = 0 →
      get_escalation_recommendations r = []) := by
  refine ⟨?_, ?_, ?_, ?_⟩
  · intro h
    have hr : has_red_alert r = true := (red_iff r).mpr h
    simp [get_escalation_recommendations, hr, h]
  · intro h2 h3
    have hr : has_red_alert r = false := by
      rcases Bool.eq_false_or_eq_true (has_red_alert r) with ht | hf
      · exact absurd ((red_iff r).mp ht) (by omega)
      · exact hf
    simp [get_escalation_recommendations, hr,
      show ¬ 4 ≤ get_highest_risk_score r by omega, h2]
  · intro h1
    have hr : has_red_alert r = false := by
      rcases Bool.eq_false_or_eq_true (has_red_alert r) with ht | hf
      · exact absurd ((red_iff r).mp ht) (by omega)
      · exact hf
    simp [get_escalation_recommendations, hr,
      show ¬ 4 ≤ get_highest_risk_score r by omega,
      show ¬ 2 ≤ get_highest_risk_score r by omega,
      show (1 : Int) ≤ get_highest_risk_score r by omega]
  · intro h0
    have hr : has_red_alert r = false := by
      rcases Bool.eq_false_or_eq_true (has_red_alert r) with ht | hf
      · exact absurd ((red_iff r).mp ht) (by omega)
      · exact hf
    simp [get_escalation_recommendations, hr,
      show ¬ 4 ≤ get_highest_risk_score r by omega,
      show ¬ 2 ≤ get_highest_risk_score r by omega,
      show ¬ 1 ≤ get_highest_risk_score r by omega]

/-- Witness for C2 at a concrete moderate-tier risk mapping. -/
theorem claim_C2_witness :
    2 ≤ get_highest_risk_score risk3 ∧ get_highest_risk_score risk3 ≤ 3 ∧
      get_escalation_recommendations risk3 =
        ["MODERATE: Schedule follow-up within 24 hours",
         "MODERATE: Connect with mental health resources"] :=
  ⟨by decide, by decide, (claim_C2 risk3).2.1 (by decide) (by decide)⟩


lemma avgFold (calls : List Call) : ∀ t : Int, ∀ v : Nat,
    calls.foldl
      (fun (acc : Int × Nat) call =>
        let response_time := callResponseTime call
        if 0 < response_time then (acc.1 + response_time, acc.2 + 1) else acc)
      (t, v)
    = (t + (validRTs calls).sum, v + (validRTs calls).length) := by
  induction calls with
  | nil => intro t v; simp [validRTs]
  | cons c cs ih =>
    intro t v
    simp only [List.foldl_cons]
    rcases hA : c.analytics with _ | a
    · have hrt : callResponseTime c = 0 := by simp [callResponseTime, hA]
      simp only [hrt]
      rw [if_neg (by omega)]
      rw [ih t v]
      simp [validRTs, List.filterMap_cons, hA]
    · rcases hR : a.response_time_sec with _ | rt
      · have hrt : callResponseTime c = 0 := by simp [callResponseTime, hA, hR]
        simp only [hrt]
        rw [if_neg (by omega)]
        rw [ih t v]
        simp [validRTs, List.filterMap_cons, hA, hR]
      · have hrt : callResponseTime c = rt := by simp [callResponseTime, hA, hR]
        simp only [hrt]
        by_cases hpos : 0 < rt
        · rw [if_pos hpos, ih]
          simp [validRTs, List.filterMap_cons, hA, hR, hpos]
          constructor <;> omega
        · rw [if_neg hpos, ih]
          simp [validRTs, List.filterMap_cons, hA, hR, hpos]

lemma avg_eq (calls : List Call) :
    calculate_avg_response_time calls =
      if validRTs calls = [] then 0
      else ((validRTs calls).sum : ℚ) / ((validRTs calls).length : ℚ) := by
  by_cases hnil : calls = []
  · subst hnil; simp [calculate_avg_response_time, validRTs]
  · unfold calculate_avg_response_time
    rw [if_neg hnil]
    simp only [avgFold calls 0 0, Int.zero_add, Nat.zero_add]
    by_cases hv : validRTs calls = []
    · simp [hv]
    · rw [if_pos (by simpa [List.length_pos] using hv), if_neg hv]

/-- C3: the `avg_response_time` returned by `compute_analytics` is the sum of
the present, strictly positive `analytics.response_time_sec` values divided
by their count, and 0 when there is no such value. -/
theorem claim_C3 (calls : List Call) (res : AnalyticsResult)
    (h : compute_analytics calls = some res) :
    res.avg_response_time =
      if validRTs calls = [] then 0
      else ((validRTs calls).sum : ℚ) / ((validRTs calls).length : ℚ) := by
  by_cases hnil : calls = []
  · subst hnil
    unfold compute_analytics at h
    rw [if_pos rfl] at h
    injection h with h
    subst h
    simp [validRTs]
  · unfold compute_analytics at h
    rw [if_neg hnil] at h
    rcases hd : calculate_risk_distribution calls with _ | d
    · rw [hd] at h; cases h
    · rw [hd] at h
      simp only [Option.bind_eq_bind, Option.some_bind] at h
      injection h with h
      subst h
      exact avg_eq calls


lemma foldBump (m : Call → Int) : ∀ (calls : List Call) (d0 : Fin 6 → Nat),
    (∀ c ∈ calls, 0 ≤ m c ∧ m c < 6) →
    calls.foldlM (fun d c => bumpDist d (m c)) d0 =
      some (fun i => d0 i + calls.countP fun c => decide (m c = (i : Int))) := by
  intro calls
  induction calls with
  | nil =>
    intro d0 _
    simp only [List.foldlM_nil, List.countP_nil, Nat.add_zero]
    rfl
  | cons c cs ih =>
    intro d0 h
    have hc := h c (List.mem_cons_self c cs)
    obtain ⟨i0, hi0⟩ : ∃ i0 : Fin 6, (i0 : Int) = m c :=
      ⟨⟨(m c).toNat, by omega⟩, by simp [Int.toNat_of_nonneg hc.1]⟩
    have hbump : bumpDist d0 (m c) = some (Function.update d0 i0 (d0 i0 + 1)) := by
      unfold bumpDist
      rw [dif_pos ⟨hc.1, hc.2⟩]
      have hfin : (⟨(m c).toNat, by omega⟩ : Fin 6) = i0 := by
        apply Fin.ext
        have := hi0
        simp only [Fin.val] at *
        omega
      rw [hfin]
    simp only [List.foldlM_cons, hbump, Option.bind_eq_bind, Option.some_bind]
    rw [ih _ (fun c' hc' => h c' (List.mem_cons_of_mem c hc'))]
    congr 1
    funext i
    by_cases hi : i = i0
    · subst hi
      rw [Function.update_same, List.countP_cons, if_pos (by simp [hi0])]
      omega
    · rw [Function.update_noteq hi, List.countP_cons, if_neg]
      · omega
      · simp only [decide_eq_true_eq]
        intro heq
        apply hi
        apply Fin.ext
        have h1 : ((i : Nat) : Int) = m c := heq.symm
        have h2 : ((i0 : Nat) : Int) = m c := hi0
        omega

lemma dist_eq (calls : List Call)
    (h : ∀ c ∈ calls, 0 ≤ analyticsMaxRisk c ∧ analyticsMaxRisk c < 6) :
    calculate_risk_distribution calls =
      some (fun i : Fin 6 =>
        calls.countP fun c => decide (analyticsMaxRisk c = (i : Int))) := by
  unfold calculate_risk_distribution
  rw [foldBump _ _ _ h]
  congr 1
  funext i
  simp [initDist]

lemma compute_ex : compute_analytics [callRT0, callRT20] = some exRes := by
  unfold compute_analytics
  rw [if_neg (by decide)]
  have hd : calculate_risk_distribution [callRT0, callRT20] = some exDist := by
    rw [dist_eq _ (by decide)]
    congr 1
    funext i
    fin_cases i <;> decide
  rw [hd]
  have havg : calculate_avg_response_time [callRT0, callRT20] = 20 := by
    rw [avg_eq]
    norm_num [show validRTs [callRT0, callRT20] = [20] from by decide]
  simp only [Option.bind_eq_bind, Option.some_bind, havg]
  rfl

/-- Witness for C3: for two calls with response times 0 and 20 the average is
20, the average of the single positive value. -/
theorem claim_C3_witness :
    compute_analytics [callRT0, callRT20] = some exRes ∧
    exRes.avg_response_time =
      if validRTs [callRT0, callRT20] = [] then 0
      else ((validRTs [callRT0, callRT20]).sum : ℚ) /
        ((validRTs [callRT0, callRT20]).length : ℚ) :=
  ⟨compute_ex, claim_C3 [callRT0, callRT20] exRes compute_ex⟩


lemma maxRisk_bounds (c : Call)
    (h : ∀ d : RiskDim, ∀ e, callRisk c d = some e →
        0 ≤ entryScore e ∧ entryScore e ≤ 5) :
    0 ≤ analyticsMaxRisk c ∧ analyticsMaxRisk c < 6 := by
  unfold analyticsMaxRisk riskDimensions
  rcases h1 : callRisk c .suicide with _ | e1 <;>
    rcases h2 : callRisk c .homicide with _ | e2 <;>
    rcases h3 : callRisk c .self_harm with _ | e3 <;>
    rcases h4 : callRisk c .harm_others with _ | e4 <;>
    simp only [List.foldl, h1, h2, h3, h4]
  all_goals
    first
    | omega
    | (try have b1 := h _ _ h1
       try have b2 := h _ _ h2
       try have b3 := h _ _ h3
       try have b4 := h _ _ h4
       omega)

lemma sum_countP_eq_length (m : Call → Int) (calls : List Call)
    (h : ∀ c ∈ calls, 0 ≤ m c ∧ m c < 6) :
    (∑ i : Fin 6, calls.countP fun c => decide (m c = (i : Int))) = calls.length := by
  induction calls with
  | nil => simp
  | cons c cs ih =>
    have hc := h c (List.mem_cons_self c cs)
    obtain ⟨i0, hi0⟩ : ∃ i0 : Fin 6, (i0 : Int) = m c :=
      ⟨⟨(m c).toNat, by omega⟩, by simp [Int.toNat_of_nonneg hc.1]⟩
    simp only [List.countP_cons, List.length_cons]
    rw [Finset.sum_add_distrib]
    rw [ih (fun c' hc' => h c' (List.mem_cons_of_mem c hc'))]
    have hsingle : ∀ i : Fin 6,
        (if decide (m c = (i : Int)) = true then 1 else 0) =
          if i = i0 then 1 else 0 := by
      intro i
      by_cases hi : i = i0
      · subst hi
        simp [hi0]
      · rw [if_neg, if_neg hi]
        simp only [decide_eq_true_eq]
        intro heq
        apply hi
        apply Fin.ext
        have h1 : ((i : Nat) : Int) = m c := heq.symm
        have h2 : ((i0 : Nat) : Int) = m c := hi0
        omega
    rw [Finset.sum_congr rfl (fun i _ => hsingle i)]
    rw [Finset.sum_ite_eq' Finset.univ i0 (fun _ => 1)]
    simp

/-- C4: when every present dimension score is an integer in [0,5],
`compute_analytics` succeeds, each call is counted in exactly the bucket of
its maximum dimension score, and the buckets sum to `total_calls`. -/
theorem claim_C4 (calls : List Call)
    (h : ∀ c ∈ calls, ∀ d : RiskDim, ∀ e, callRisk c d = some e →
        0 ≤ entryScore e ∧ entryScore e ≤ 5) :
    ∃ res, compute_analytics calls = some res ∧
      res.total_calls = calls.length ∧
      (∀ i : Fin 6, res.risk_distribution i =
        calls.countP fun c => decide (analyticsMaxRisk c = (i : Int))) ∧
      (∑ i : Fin 6, res.risk_distribution i) = calls.length := by
  have hb : ∀ c ∈ calls, 0 ≤ analyticsMaxRisk c ∧ analyticsMaxRisk c < 6 :=
    fun c hc => maxRisk_bounds c (h c hc)
  by_cases hnil : calls = []
  · subst hnil
    exact ⟨⟨0, fun _ => 0, 0⟩, rfl, rfl, fun i => by simp, by simp⟩
  · refine ⟨⟨calls.length,
      (fun i => calls.countP fun c => decide (analyticsMaxRisk c = (i : Int))),
      calculate_avg_response_time calls⟩, ?_, rfl, fun i => rfl,
      sum_countP_eq_length _ _ hb⟩
    unfold compute_analytics
    rw [if_neg hnil, dist_eq calls hb]
    rfl

lemma callRisky_bounds : ∀ c ∈ [callRisky], ∀ d : RiskDim, ∀ e,
    callRisk c d = some e → 0 ≤ entryScore e ∧ entryScore e ≤ 5 := by
  intro c hc d e he
  simp only [List.mem_singleton] at hc
  subst hc
  cases d <;> simp [callRisk, callRisky, risk3] at he <;> subst he <;> decide

/-- Witness for C4 at a one-call list with in-range scores. -/
theorem claim_C4_witness :
    (∀ c ∈ [callRisky], ∀ d : RiskDim, ∀ e, callRisk c d = some e →
        0 ≤ entryScore e ∧ entryScore e ≤ 5) ∧
    ∃ res, compute_analytics [callRisky] = some res ∧
      res.total_calls = [callRisky].length ∧
      (∀ i : Fin 6, res.risk_distribution i =
        [callRisky].countP fun c => decide (analyticsMaxRisk c = (i : Int))) ∧
      (∑ i : Fin 6, res.risk_distribution i) = [callRisky].length :=
  ⟨callRisky_bounds, claim_C4 [callRisky] callRisky_bounds⟩

/-- C5: `compute_analytics` on the empty list returns 0 total calls, an
all-zero distribution over the buckets 0..5, an average response time of 0,
and no error. -/
theorem claim_C5 :
    ∃ res, compute_analytics [] = some res ∧ res.total_calls = 0 ∧
      (∀ i : Fin 6, res.risk_distribution i = 0) ∧ res.avg_response_time = 0 :=
  ⟨⟨0, fun _ => 0, 0⟩, rfl, rfl, fun _ => rfl, rfl⟩


lemma validate_eq_flatten (r : Risk) :
    validate_risk_scores r = (riskDimensions.map (dimScoreErrors r)).flatten := by
  have key : ∀ (l : List RiskDim) (init : List String),
      l.foldl
        (fun errors dimension =>
          match r dimension with
          | some e =>
              match e.score with
              | none =>
                  errors ++ ["Invalid " ++ dimName dimension ++
                    " risk score: None. Must be integer 0-5."]
              | some s =>
                  if s < 0 ∨ 5 < s then
                    errors ++ ["Invalid " ++ dimName dimension ++
                      " risk score: " ++ toString s ++ ". Must be integer 0-5."]
                  else errors
          | none => errors)
        init
      = init ++ (l.map (dimScoreErrors r)).flatten := by
    intro l
    induction l with
    | nil => intro init; simp
    | cons d rest ih =>
      intro init
      rw [List.foldl_cons, ih]
      have hstep : (match r d with
          | some e =>
              match e.score with
              | none =>
                  init ++ ["Invalid " ++ dimName d ++
                    " risk score: None. Must be integer 0-5."]
              | some s =>
                  if s < 0 ∨ 5 < s then
                    init ++ ["Invalid " ++ dimName d ++
                      " risk score: " ++ toString s ++ ". Must be integer 0-5."]
                  else init
          | none => init)
          = init ++ dimScoreErrors r d := by
        unfold dimScoreErrors
        rcases hd : r d with _ | e
        · simp
        · rcases he : e.score with _ | sc
          · simp [he]
          · simp only [he]
            by_cases hrange : sc < 0 ∨ 5 < sc
            · rw [if_pos hrange, if_pos hrange]
            · rw [if_neg hrange, if_neg hrange]
              simp
      rw [hstep]
      simp [List.map_cons, List.flatten_cons, List.append_assoc]
  have := key riskDimensions []
  simpa [validate_risk_scores] using this

/-- C6: an out-of-range score (> 5) still renders, as a fully filled 5/5 bar
(the clamped rendering of 5), and `validate_risk_scores` flags it with a
non-fatal diagnostic (a non-empty error list) for any risk mapping carrying
it. -/
theorem claim_C6 (s : Int) (hs : 5 < s) :
    draw_risk_bar_pdf s = List.replicate 5 true ∧
    draw_risk_bar_pdf s = draw_risk_bar_pdf 5 ∧
    ∀ r : Risk, ∀ d : RiskDim, r d = some ⟨some s⟩ →
      validate_risk_scores r ≠ [] := by
  have hfull : draw_risk_bar_pdf s = List.replicate 5 true := by
    unfold draw_risk_bar_pdf
    rw [show List.range 5 = [0, 1, 2, 3, 4] from rfl]
    simp only [List.map, List.replicate, List.cons.injEq, and_true,
      decide_eq_true_eq]
    norm_num
    omega
  refine ⟨hfull, by rw [hfull]; decide, ?_⟩
  intro r d hd
  have hmem : dimScoreErrors r d ∈ riskDimensions.map (dimScoreErrors r) :=
    List.mem_map_of_mem _ (by cases d <;> decide)
  have herr : dimScoreErrors r d ≠ [] := by
    unfold dimScoreErrors
    rw [hd]
    simp only
    rw [if_pos (Or.inr hs)]
    simp
  rw [validate_eq_flatten]
  intro hflat
  apply herr
  rcases hne : dimScoreErrors r d with _ | ⟨x, xs⟩
  · rfl
  · exfalso
    have hx : x ∈ (riskDimensions.map (dimScoreErrors r)).flatten :=
      List.mem_flatten.mpr ⟨dimScoreErrors r d, hmem, by rw [hne]; exact List.mem_cons_self x xs⟩
    rw [hflat] at hx
    exact (List.not_mem_nil x) hx


/-- Witness for C6 at the concrete out-of-range score 7. -/
theorem claim_C6_witness :
    (5 : Int) < 7 ∧ draw_risk_bar_pdf 7 = List.replicate 5 true ∧
      validate_risk_scores risk7 ≠ [] :=
  ⟨by decide, (claim_C6 7 (by decide)).1,
    (claim_C6 7 (by decide)).2.2 risk7 .suicide rfl⟩

/-- C7 fails as stated: on a record whose stored `ended_at` (11:30) disagrees
with `started_at + duration_sec` (10:01), the rendered End Time row follows
`ended_at`, so it is not derived from `started_at` plus `duration_sec`. -/
theorem claim_C7_counterexample :
    (draw_call_info callMismatchedEnd).get? 2 = some ("End Time:", "11:30 AM") ∧
    fmt12h (callMismatchedEnd.started_at + callMismatchedEnd.duration_sec.getD 0) =
      "10:01 AM" ∧
    ¬ ((draw_call_info callMismatchedEnd).get? 2 =
        some ("End Time:",
          fmt12h (callMismatchedEnd.started_at +
            callMismatchedEnd.duration_sec.getD 0))) := by
  refine ⟨?_, ?_, ?_⟩ <;> decide

/-- C7 amended: the call-information table formats the duration as m:ss from
`duration_sec`, the start time from `started_at` on a 12-hour clock, and the
end time independently from the record's `ended_at` field, also on a 12-hour
clock. -/
theorem claim_C7_amended (c : Call) :
    (draw_call_info c).get? 0 =
      some ("Call Duration:",
        toString (c.duration_sec.getD 0 / 60) ++ ":" ++
          pad2 (c.duration_sec.getD 0 % 60)) ∧
    (draw_call_info c).get? 1 = some ("Start Time:", fmt12h c.started_at) ∧
    (draw_call_info c).get? 2 = some ("End Time:", fmt12h c.ended_at) :=
  ⟨rfl, rfl, rfl⟩

/-- C8 fails as stated: a `risk_factors` section with comma-delimited content
is rendered as one single paragraph containing the text verbatim, not split
into bullet items. -/
theorem claim_C8_counterexample :
    draw_summary_sections exSections = ["Risk Factors", "a, b"] ∧
    draw_summary_sections_claimed exSections = ["Risk Factors", "a", "b"] ∧
    draw_summary_sections exSections ≠ draw_summary_sections_claimed exSections := by
  refine ⟨?_, ?_, ?_⟩ <;> decide

/-- C8 amended: the eight sections are emitted in the canonical fixed order,
only when present and non-empty, and every section (including `risk_factors`
and `protective_factors`) is rendered as its title followed by one single
paragraph holding the content verbatim. -/
theorem claim_C8_amended (s : Sections) :
    draw_summary_sections s = sectionOrder.flatMap (sectionRendering s) := by
  have key : ∀ (l : List SectionKey) (init : List String),
      l.foldl
        (fun story section_key =>
          match s section_key with
          | some txt =>
              if txt ≠ "" then story ++ [sectionTitle section_key, txt] else story
          | none => story)
        init
      = init ++ l.flatMap (sectionRendering s) := by
    intro l
    induction l with
    | nil => intro init; simp
    | cons k rest ih =>
      intro init
      rw [List.foldl_cons, ih]
      have hstep : (match s k with
          | some txt =>
              if txt ≠ "" then init ++ [sectionTitle k, txt] else init
          | none => init)
          = init ++ sectionRendering s k := by
        unfold sectionRendering
        rcases hk : s k with _ | txt
        · simp
        · by_cases htxt : txt = ""
          · simp [htxt]
          · simp [htxt]
      rw [hstep]
      simp [List.flatMap_cons, List.append_assoc]
  have := key sectionOrder []
  simpa [draw_summary_sections] using this

/-- C9: when `caller_profile` is absent, or present without a gender, the
Gender row of the call-information table reads exactly "Not specified". -/
theorem claim_C9 (c : Call)
    (h : c.caller_profile = none ∨
      ∃ p, c.caller_profile = some p ∧ p.gender = none) :
    (draw_call_info c).get? 5 = some ("Gender:", "Not specified") := by
  rcases h with h | ⟨p, hp, hg⟩
  · simp [draw_call_info, h]
  · simp [draw_call_info, hp, hg]

/-- Witness for C9 at a concrete call with no caller profile at all. -/
theorem claim_C9_witness :
    callNoProfile.caller_profile = none ∧
    (draw_call_info callNoProfile).get? 5 = some ("Gender:", "Not specified") :=
  ⟨rfl, claim_C9 callNoProfile (Or.inl rfl)⟩


lemma callFull_bounds : ∀ c ∈ [callFull], ∀ d : RiskDim, ∀ e,
    callRisk c d = some e → 0 ≤ entryScore e ∧ entryScore e ≤ 5 := by
  intro c hc d e he
  simp only [List.mem_singleton] at hc
  subst hc
  cases d <;> simp [callRisk, callFull, risk3] at he <;> subst he <;> decide

lemma backendRT_eq_callRT (c : Call) :
    backendRTContribution c = callResponseTime c := by
  rcases hA : c.analytics with _ | a <;>
    simp only [backendRTContribution, callResponseTime, hA]
  rcases hR : a.response_time_sec with _ | rt <;> simp [hR]

lemma backendMax_eq (c : Call)
    (h : ∀ d : RiskDim, ∀ e, callRisk c d = some e →
        0 ≤ entryScore e ∧ entryScore e ≤ 5) :
    backendMaxRisk c = analyticsMaxRisk c := by
  rcases hr : c.risk with _ | r
  · simp [backendMaxRisk, analyticsMaxRisk, callRisk, hr, emptyRisk,
      riskDimensions, List.foldl]
  · have hc' : ∀ d : RiskDim, ∀ e, r d = some e →
        0 ≤ entryScore e ∧ entryScore e ≤ 5 :=
      fun d e hde => h d e (by simp [callRisk, hr, hde])
    unfold backendMaxRisk analyticsMaxRisk backendDimScore callRisk riskDimensions
    rw [hr]
    rcases h1 : r .suicide with _ | e1 <;>
      rcases h2 : r .homicide with _ | e2 <;>
      rcases h3 : r .self_harm with _ | e3 <;>
      rcases h4 : r .harm_others with _ | e4 <;>
      simp only [List.foldl, h1, h2, h3, h4, Option.getD_some, Option.getD_none]
    all_goals
      first
      | omega
      | (try have b1 := hc' _ _ h1
         try have b2 := hc' _ _ h2
         try have b3 := hc' _ _ h3
         try have b4 := hc' _ _ h4
         simp only [entryScore] at *
         omega)

lemma backendFold : ∀ (calls : List Call) (d0 : Fin 6 → Nat) (t0 : Int),
    (∀ c ∈ calls, 0 ≤ backendMaxRisk c ∧ backendMaxRisk c < 6) →
    calls.foldlM backendStep (d0, t0) =
      some ((fun i => d0 i +
          calls.countP fun c => decide (backendMaxRisk c = (i : Int))),
        t0 + (calls.map backendRTContribution).sum) := by
  intro calls
  induction calls with
  | nil =>
    intro d0 t0 _
    simp only [List.foldlM_nil, List.countP_nil, List.map_nil, List.sum_nil,
      Nat.add_zero, Int.add_zero]
    rfl
  | cons c cs ih =>
    intro d0 t0 h
    have hc := h c (List.mem_cons_self c cs)
    obtain ⟨i0, hi0⟩ : ∃ i0 : Fin 6, (i0 : Int) = backendMaxRisk c :=
      ⟨⟨(backendMaxRisk c).toNat, by omega⟩, by simp [Int.toNat_of_nonneg hc.1]⟩
    have hbump : bumpDist d0 (backendMaxRisk c) =
        some (Function.update d0 i0 (d0 i0 + 1)) := by
      unfold bumpDist
      rw [dif_pos ⟨hc.1, hc.2⟩]
      have hfin : (⟨(backendMaxRisk c).toNat, by omega⟩ : Fin 6) = i0 := by
        apply Fin.ext
        have := hi0
        simp only [Fin.val] at *
        omega
      rw [hfin]
    have hstep : backendStep (d0, t0) c =
        some (Function.update d0 i0 (d0 i0 + 1), t0 + backendRTContribution c) := by
      unfold backendStep
      rw [hbump]
      rfl
    simp only [List.foldlM_cons, hstep, Option.bind_eq_bind, Option.some_bind]
    rw [ih _ _ (fun c' hc' => h c' (List.mem_cons_of_mem c hc'))]
    simp only [Option.some.injEq, Prod.mk.injEq]
    constructor
    · funext i
      by_cases hi : i = i0
      · subst hi
        rw [Function.update_same, List.countP_cons, if_pos (by simp [hi0])]
        omega
      · rw [Function.update_noteq hi, List.countP_cons, if_neg]
        · omega
        · simp only [decide_eq_true_eq]
          intro heq
          apply hi
          apply Fin.ext
          have hx1 : ((i : Nat) : Int) = backendMaxRisk c := heq.symm
          have hx2 : ((i0 : Nat) : Int) = backendMaxRisk c := hi0
          omega
    · simp only [List.map_cons, List.sum_cons]
      omega

lemma validRTs_all_positive (calls : List Call)
    (h : ∀ c ∈ calls, 0 < callResponseTime c) :
    validRTs calls = calls.map callResponseTime := by
  induction calls with
  | nil => rfl
  | cons c cs ih =>
    have hc := h c (List.mem_cons_self c cs)
    have hrest := ih (fun c' hc' => h c' (List.mem_cons_of_mem c hc'))
    rcases hA : c.analytics with _ | a
    · exfalso
      simp [callResponseTime, hA] at hc
    · rcases hR : a.response_time_sec with _ | rt
      · exfalso
        simp [callResponseTime, hA, hR] at hc
      · have hcrt : callResponseTime c = rt := by simp [callResponseTime, hA, hR]
        rw [hcrt] at hc
        simp only [validRTs, List.filterMap_cons, hA, hR, if_pos hc,
          List.map_cons, hcrt]
        rw [← validRTs]
        rw [hrest]

/-- C10 fails as stated: on two calls with response times 0 and 20,
`compute_analytics` averages only the positive value (20), while the backend
endpoint sums every present value and divides by the total call count (10). -/
theorem claim_C10_counterexample :
    (compute_analytics [callRT0, callRT20]).map (fun r => r.avg_response_time) =
      some 20 ∧
    (backend_get_analytics [callRT0, callRT20]).map (fun r => r.avg_response_time) =
      some 10 ∧
    (20 : ℚ) ≠ 10 := by
  refine ⟨?_, ?_, by norm_num⟩
  · rw [compute_ex]
    rfl
  · simp [backend_get_analytics, backendStep, bumpDist, backendMaxRisk,
      backendRTContribution, callRT0, callRT20, initDist]
    norm_num

/-- C10 amended: when every present dimension score is in [0,5], the backend
endpoint and `compute_analytics` agree on `total_calls` and on the risk
distribution (bucket keys identified with 0..5); their `avg_response_time`
also agrees whenever every call carries a present, strictly positive
`analytics.response_time_sec` — but not in general. -/
theorem claim_C10_amended (calls : List Call)
    (hscore : ∀ c ∈ calls, ∀ d : RiskDim, ∀ e, callRisk c d = some e →
        0 ≤ entryScore e ∧ entryScore e ≤ 5) :
    ∃ res₁ res₂, compute_analytics calls = some res₁ ∧
      backend_get_analytics calls = some res₂ ∧
      res₁.total_calls = res₂.total_calls ∧
      res₁.risk_distribution = res₂.risk_distribution ∧
      ((∀ c ∈ calls, 0 < callResponseTime c) →
        res₁.avg_response_time = res₂.avg_response_time) := by
  have hb : ∀ c ∈ calls, 0 ≤ analyticsMaxRisk c ∧ analyticsMaxRisk c < 6 :=
    fun c hc => maxRisk_bounds c (hscore c hc)
  have hbeq : ∀ c ∈ calls, backendMaxRisk c = analyticsMaxRisk c :=
    fun c hc => backendMax_eq c (hscore c hc)
  have hbb : ∀ c ∈ calls, 0 ≤ backendMaxRisk c ∧ backendMaxRisk c < 6 :=
    fun c hc => by rw [hbeq c hc]; exact hb c hc
  have hback : backend_get_analytics calls =
      some ⟨calls.length,
        (fun i => calls.countP fun c => decide (backendMaxRisk c = (i : Int))),
        if 0 < calls.length
          then ((calls.map backendRTContribution).sum : ℚ) / (calls.length : ℚ)
          else 0⟩ := by
    unfold backend_get_analytics
    rw [backendFold calls initDist 0 hbb]
    simp [initDist]
  have hdist : ∀ i : Fin 6,
      (calls.countP fun c => decide (analyticsMaxRisk c = (i : Int))) =
        calls.countP fun c => decide (backendMaxRisk c = (i : Int)) := by
    intro i
    apply List.countP_congr
    intro c hc
    simp [hbeq c hc]
  by_cases hnil : calls = []
  · subst hnil
    refine ⟨⟨0, fun _ => 0, 0⟩, ⟨0, fun _ => 0, 0⟩, rfl, ?_, rfl, rfl, fun _ => rfl⟩
    rw [hback]
    rfl
  · refine ⟨⟨calls.length,
      (fun i => calls.countP fun c => decide (analyticsMaxRisk c = (i : Int))),
      calculate_avg_response_time calls⟩, _, ?_, hback, rfl, ?_, ?_⟩
    · unfold compute_analytics
      rw [if_neg hnil, dist_eq calls hb]
      rfl
    · funext i
      exact hdist i
    · intro hrt
      have hlen : 0 < calls.length := List.length_pos.mpr hnil
      have hmap : validRTs calls = calls.map callResponseTime :=
        validRTs_all_positive calls hrt
      have hvne : validRTs calls ≠ [] := by
        rw [hmap]
        simp [hnil]
      rw [avg_eq, if_neg hvne, hmap]
      simp only [if_pos hlen, List.length_map]
      have hmaps : List.map callResponseTime calls =
          List.map backendRTContribution calls := by
        apply List.map_congr_left
        intro c hc
        exact (backendRT_eq_callRT c).symm
      rw [hmaps]


/-- Witness for C10 at a one-call list with in-range scores and a present
positive response time. -/
theorem claim_C10_witness :
    (∀ c ∈ [callFull], ∀ d : RiskDim, ∀ e, callRisk c d = some e →
        0 ≤ entryScore e ∧ entryScore e ≤ 5) ∧
    (∀ c ∈ [callFull], 0 < callResponseTime c) ∧
    (∃ res₁ res₂, compute_analytics [callFull] = some res₁ ∧
      backend_get_analytics [callFull] = some res₂ ∧
      res₁.total_calls = res₂.total_calls ∧
      res₁.risk_distribution = res₂.risk_distribution ∧
      ((∀ c ∈ [callFull], 0 < callResponseTime c) →
        res₁.avg_response_time = res₂.avg_response_time)) :=
  ⟨callFull_bounds, by decide, claim_C10_amended [callFull] callFull_bounds⟩

end Crisisline